import Mathlib

/-
Verification of the event-detector pipeline (timvanderHorst/fork-eventdetector).

Shallow embedding of the Python sources:
  - src/eventdetector/data/helpers.py      (time-unit arithmetic, sliding windows,
                                            close-event removal, the op target)
  - src/eventdetector/models/models_trainer.py  (best-model selection, meta-model FFN)
  - src/eventdetector/metamodel/meta_model.py   (constructor ordering, output dir)

Conventions:
  - Python floats and timestamps are modelled as rationals; a datetime.timedelta is
    modelled by its total number of seconds as a rational.
  - A pandas cell that may be NaN is modelled as an Option of a rational (none = NaN).
  - Fallible Python code (raise) is modelled with Except String.
  - Randomness (np.random.randint) is modelled by an explicit entropy stream; each
    consumed entropy value is reduced into the requested range by a modulus, which
    captures exactly the set of possible outcomes.
-/

namespace EventDetector

/-- Closed enumeration of time units used by the pipeline (the TimeUnit enum of the
eventdetector package), from microsecond to year. -/
inductive TimeUnit where
  | microsecond
  | millisecond
  | second
  | minute
  | hour
  | day
  | year
  deriving DecidableEq, Repr

/-- Truncation toward zero: the semantics of Python int() applied to a float. -/
def pyTrunc (q : ℚ) : ℤ := if 0 ≤ q then ⌊q⌋ else ⌈q⌉

/-- Embedding of helpers.get_timedelta (src/eventdetector/data/helpers.py, lines
419-445).  A duration is represented by its total number of seconds.  YEAR is built
from 365 days exactly, as in the source (timedelta(days=delta_unit_time * 365)). -/
def get_timedelta (delta_unit_time : ℤ) (unit : TimeUnit) : ℚ :=
  match unit with
  | .microsecond => (delta_unit_time : ℚ) / 1000000
  | .millisecond => (delta_unit_time : ℚ) / 1000
  | .second => (delta_unit_time : ℚ)
  | .minute => (delta_unit_time : ℚ) * 60
  | .hour => (delta_unit_time : ℚ) * 3600
  | .day => (delta_unit_time : ℚ) * 86400
  | .year => ((delta_unit_time * 365 : ℤ) : ℚ) * 86400

/-- Embedding of helpers.get_total_units (lines 448-464) on a duration given as its
total number of seconds.  YEAR uses 365.25 days (written 1461 / 4), exactly as the
source divides by 3600 * 24 * 365.25. -/
def get_total_units (total_seconds : ℚ) (unit : TimeUnit) : ℚ :=
  match unit with
  | .microsecond => total_seconds * 1000000
  | .millisecond => total_seconds * 1000
  | .second => total_seconds
  | .minute => total_seconds / 60
  | .hour => total_seconds / 3600
  | .day => total_seconds / (3600 * 24)
  | .year => total_seconds / (3600 * 24 * (1461 / 4 : ℚ))

/-- Embedding of helpers.check_time_unit (lines 467-508) on a duration given as its
total number of seconds.  The unit thresholds are tested in descending order with
strict comparisons, and the magnitude is the Python int() truncation. -/
def check_time_unit (total_seconds : ℚ) : Except String (ℤ × TimeUnit) :=
  if total_seconds > 31536000 then .ok (pyTrunc (total_seconds / 31536000), .year)
  else if total_seconds > 86400 then .ok (pyTrunc (total_seconds / 86400), .day)
  else if total_seconds > 3600 then .ok (pyTrunc (total_seconds / 3600), .hour)
  else if total_seconds > 60 then .ok (pyTrunc (total_seconds / 60), .minute)
  else if total_seconds > 1 then .ok (pyTrunc total_seconds, .second)
  else if total_seconds * 1000 > 1 then .ok (pyTrunc (total_seconds * 1000), .millisecond)
  else if total_seconds * 1000000 > 1 then .ok (pyTrunc (total_seconds * 1000000), .microsecond)
  else .error "Could not determine the unit of time of the dataset"

/-- Claim C6: check_time_unit applied to durations of 2 years, 2 days, 2 hours,
2 minutes, 2 seconds, 2 milliseconds and 2 microseconds returns (2, matching unit),
testing units in descending order, and a zero or negative duration raises the
undetermined-unit failure. -/
theorem C6_check_time_unit_table (u : TimeUnit) (q : ℚ) (hq : q ≤ 0) :
    check_time_unit (get_timedelta 2 u) = .ok (2, u) ∧
    check_time_unit q = .error "Could not determine the unit of time of the dataset" := by
  constructor
  · cases u <;> norm_num [check_time_unit, get_timedelta, pyTrunc]
  · unfold check_time_unit
    rw [if_neg (by intro h; exact absurd hq (by linarith)),
      if_neg (by intro h; exact absurd hq (by linarith)),
      if_neg (by intro h; exact absurd hq (by linarith)),
      if_neg (by intro h; exact absurd hq (by linarith)),
      if_neg (by intro h; exact absurd hq (by linarith)),
      if_neg (by intro h; exact absurd hq (by linarith)),
      if_neg (by intro h; exact absurd hq (by linarith))]

/-- Witness for C6 at the concrete unit SECOND and the concrete zero duration. -/
theorem C6_check_time_unit_table_witness :
    check_time_unit (get_timedelta 2 .second) = .ok (2, .second) ∧
    check_time_unit 0 = .error "Could not determine the unit of time of the dataset" :=
  C6_check_time_unit_table .second 0 (le_refl 0)

/-- Claim C7: get_timedelta(n, YEAR) is exactly 365 * n days (in seconds,
365 * n * 86400), the YEAR round trip through get_total_units yields
n * 365 / 365.25 (and hence differs from n whenever n is nonzero), while the round
trip for every other unit is exactly n. -/
theorem C7_year_roundtrip_asymmetry (n : ℤ) :
    get_timedelta n .year = ((365 * n : ℤ) : ℚ) * 86400 ∧
    get_total_units (get_timedelta n .year) .year = (n : ℚ) * 365 / (1461 / 4 : ℚ) ∧
    (n ≠ 0 → get_total_units (get_timedelta n .year) .year ≠ (n : ℚ)) ∧
    (∀ u : TimeUnit, u ≠ .year → get_total_units (get_timedelta n u) u = (n : ℚ)) := by
  refine ⟨?_, ?_, ?_, ?_⟩
  · show ((n * 365 : ℤ) : ℚ) * 86400 = ((365 * n : ℤ) : ℚ) * 86400
    push_cast
    ring
  · show ((n * 365 : ℤ) : ℚ) * 86400 / (3600 * 24 * (1461 / 4 : ℚ)) =
      (n : ℚ) * 365 / (1461 / 4 : ℚ)
    push_cast
    field_simp
    ring
  · intro hn h
    have h2 : ((n * 365 : ℤ) : ℚ) * 86400 / (3600 * 24 * (1461 / 4 : ℚ)) = (n : ℚ) := h
    push_cast at h2
    field_simp at h2
    have : (n : ℚ) = 0 := by linarith
    exact hn (by exact_mod_cast this)
  · intro u hu
    cases u with
    | year => exact absurd rfl hu
    | microsecond =>
      show (n : ℚ) / 1000000 * 1000000 = (n : ℚ)
      field_simp
    | millisecond =>
      show (n : ℚ) / 1000 * 1000 = (n : ℚ)
      field_simp
    | second => rfl
    | minute =>
      show (n : ℚ) * 60 / 60 = (n : ℚ)
      field_simp
    | hour =>
      show (n : ℚ) * 3600 / 3600 = (n : ℚ)
      field_simp
    | day =>
      show (n : ℚ) * 86400 / (3600 * 24) = (n : ℚ)
      norm_num

/-- Witness for C7 at the concrete magnitude 1 and the concrete unit DAY. -/
theorem C7_year_roundtrip_asymmetry_witness :
    get_timedelta 1 .year = ((365 * 1 : ℤ) : ℚ) * 86400 ∧
    get_total_units (get_timedelta 1 .year) .year ≠ (1 : ℚ) ∧
    get_total_units (get_timedelta 1 .day) .day = (1 : ℚ) :=
  ⟨(C7_year_roundtrip_asymmetry 1).1,
    (C7_year_roundtrip_asymmetry 1).2.2.1 (by decide),
    (C7_year_roundtrip_asymmetry 1).2.2.2 .day (by decide)⟩

/-- Temporal interval of the pipeline (eventdetector/data/interval.py): a pair of
timestamps, here modelled as rationals (seconds). -/
structure Interval where
  start_time : ℚ
  end_time : ℚ
  deriving DecidableEq, Repr

/-- Two intervals overlap when they share an intersection of positive length. -/
def Interval.overlaps (a b : Interval) : Prop :=
  max a.start_time b.start_time < min a.end_time b.end_time

instance (a b : Interval) : Decidable (a.overlaps b) := by
  unfold Interval.overlaps
  infer_instance

/-- Modelled from the spec: Interval.overlapping_parameter from
eventdetector/data/interval.py, which is not part of src.  Spec section 4.1 requires
a score in [0, 1] that is 0 when the spans do not intersect and rises toward 1 as
they coincide; section 9 suggests intersection duration over union duration, which
is the symmetric bounded normalization adopted here. -/
def overlapping_parameter (a b : Interval) : ℚ :=
  let inter := min a.end_time b.end_time - max a.start_time b.start_time
  let union := max a.end_time b.end_time - min a.start_time b.start_time
  if inter ≤ 0 then 0 else inter / union

/-- A pandas cell: none models NaN. -/
abbrev Cell := Option ℚ

/-- Reads a timestamp out of a cell (timestamps in the data are never NaN). -/
def cellTime (c : Cell) : ℚ := c.getD 0

/-- Interval of a sliding window, as built by helpers.op (lines 377-381): the last
column of the first row and the last column of the last row are its timestamps. -/
def windowInterval (w : List (List Cell)) : Interval :=
  { start_time := cellTime ((w.headD []).getLastD none),
    end_time := cellTime ((w.getLastD []).getLastD none) }

/-- Embedding of the inner event loop of helpers.op (lines 387-407).  The scan walks
the indexed tail of the event list from the cursor, skipping (and advancing the
cursor past) events that end before the window starts, breaking at the first zero
overlap, and otherwise keeping the running maximum.  Returns the new cursor and the
op value of the window. -/
def opInner (ovp : Interval → Interval → ℚ) (wint : Interval) :
    List (ℕ × Interval) → ℕ → ℚ → ℕ × ℚ
  | [], s, cur => (s, cur)
  | (idx, ev) :: rest, s, cur =>
    if wint.start_time ≥ ev.end_time then
      opInner ovp wint rest (idx + 1) cur
    else
      let p := ovp wint ev
      if p = 0 then (s, cur)
      else opInner ovp wint rest s (if p > cur then p else cur)

/-- Embedding of the outer window loop of helpers.op (lines 369-410): one op value
per window, threading the monotonic cursor starting_event_index across windows. -/
def opValuesGo (ovp : Interval → Interval → ℚ) (events : List Interval) :
    List (List (List Cell)) → ℕ → List ℚ
  | [], _ => []
  | w :: ws, s =>
    let r := opInner ovp (windowInterval w) (events.enum.drop s) s 0
    r.2 :: opValuesGo ovp events ws r.1

/-- Embedding of helpers.op (lines 350-416), parametrized by the interval overlap
score: returns the windows with the trailing timestamp column deleted, together with
one op value per window. -/
def opWith (ovp : Interval → Interval → ℚ) (windows : List (List (List Cell)))
    (events : List Interval) : List (List (List Cell)) × List ℚ :=
  (windows.map (fun w => w.map List.dropLast), opValuesGo ovp events windows 0)

/-- The op of the source, using the modelled overlap score. -/
def op (windows : List (List (List Cell))) (events : List Interval) :
    List (List (List Cell)) × List ℚ :=
  opWith overlapping_parameter windows events

/-- The modelled overlap score lies in [0, 1]. -/
lemma overlapping_parameter_mem_unitInterval (a b : Interval) :
    0 ≤ overlapping_parameter a b ∧ overlapping_parameter a b ≤ 1 := by
  unfold overlapping_parameter
  by_cases h : min a.end_time b.end_time - max a.start_time b.start_time ≤ 0
  · simp [h]
  · push_neg at h
    rw [if_neg (by linarith)]
    have hmaxe : min a.end_time b.end_time ≤ max a.end_time b.end_time :=
      le_trans (min_le_left _ _) (le_max_left _ _)
    have hmins : min a.start_time b.start_time ≤ max a.start_time b.start_time :=
      min_le_max
    have hunion : min a.end_time b.end_time - max a.start_time b.start_time ≤
        max a.end_time b.end_time - min a.start_time b.start_time := by linarith
    constructor
    · exact div_nonneg (by linarith) (by linarith)
    · exact div_le_one_of_le₀ hunion (by linarith)

/-- The modelled overlap score is 0 on intervals that do not overlap. -/
lemma overlapping_parameter_eq_zero_of_not_overlaps (a b : Interval)
    (h : ¬ a.overlaps b) : overlapping_parameter a b = 0 := by
  unfold Interval.overlaps at h
  push_neg at h
  unfold overlapping_parameter
  rw [if_pos (by linarith)]

/-- The inner loop keeps the op value inside [0, 1]. -/
lemma opInner_mem_unitInterval (ovp : Interval → Interval → ℚ)
    (hb : ∀ a b, 0 ≤ ovp a b ∧ ovp a b ≤ 1) (wint : Interval) :
    ∀ (l : List (ℕ × Interval)) (s : ℕ) (cur : ℚ), 0 ≤ cur → cur ≤ 1 →
      0 ≤ (opInner ovp wint l s cur).2 ∧ (opInner ovp wint l s cur).2 ≤ 1 := by
  intro l
  induction l with
  | nil => intro s cur h0 h1; exact ⟨h0, h1⟩
  | cons hd tl ih =>
    intro s cur h0 h1
    obtain ⟨idx, ev⟩ := hd
    by_cases hskip : wint.start_time ≥ ev.end_time
    · rw [opInner, if_pos hskip]
      exact ih (idx + 1) cur h0 h1
    · rw [opInner, if_neg hskip]
      by_cases hp : ovp wint ev = 0
      · simp only [hp, if_pos rfl]
        exact ⟨h0, h1⟩
      · simp only [if_neg hp]
        by_cases hgt : ovp wint ev > cur
        · rw [if_pos hgt]
          exact ih s _ (hb wint ev).1 (hb wint ev).2
        · rw [if_neg hgt]
          exact ih s cur h0 h1

/-- The inner loop returns the running value unchanged when the window overlaps no
event of the scanned list. -/
lemma opInner_eq_of_no_overlap (ovp : Interval → Interval → ℚ)
    (h0 : ∀ a b, ¬ a.overlaps b → ovp a b = 0) (wint : Interval) :
    ∀ (l : List (ℕ × Interval)) (s : ℕ) (cur : ℚ),
      (∀ q ∈ l, ¬ wint.overlaps q.2) → (opInner ovp wint l s cur).2 = cur := by
  intro l
  induction l with
  | nil => intro s cur _; rfl
  | cons hd tl ih =>
    intro s cur hno
    obtain ⟨idx, ev⟩ := hd
    by_cases hskip : wint.start_time ≥ ev.end_time
    · rw [opInner, if_pos hskip]
      exact ih (idx + 1) cur (fun q hq => hno q (List.mem_cons_of_mem _ hq))
    · rw [opInner, if_neg hskip]
      have hz : ovp wint ev = 0 := h0 wint ev (hno (idx, ev) (List.mem_cons_self _ _))
      simp [hz]

/-- The inner loop either returns the running value or the overlap score of some
scanned event. -/
lemma opInner_attained (ovp : Interval → Interval → ℚ) (wint : Interval) :
    ∀ (l : List (ℕ × Interval)) (s : ℕ) (cur : ℚ),
      (opInner ovp wint l s cur).2 = cur ∨
      ∃ q ∈ l, (opInner ovp wint l s cur).2 = ovp wint q.2 := by
  intro l
  induction l with
  | nil => intro s cur; exact Or.inl rfl
  | cons hd tl ih =>
    intro s cur
    obtain ⟨idx, ev⟩ := hd
    by_cases hskip : wint.start_time ≥ ev.end_time
    · rw [opInner, if_pos hskip]
      rcases ih (idx + 1) cur with h | ⟨q, hq, h⟩
      · exact Or.inl h
      · exact Or.inr ⟨q, List.mem_cons_of_mem _ hq, h⟩
    · rw [opInner, if_neg hskip]
      by_cases hp : ovp wint ev = 0
      · simp only [hp, if_pos rfl]
        exact Or.inl rfl
      · simp only [if_neg hp]
        by_cases hgt : ovp wint ev > cur
        · rw [if_pos hgt]
          rcases ih s (ovp wint ev) with h | ⟨q, hq, h⟩
          · exact Or.inr ⟨(idx, ev), List.mem_cons_self _ _, h⟩
          · exact Or.inr ⟨q, List.mem_cons_of_mem _ hq, h⟩
        · rw [if_neg hgt]
          rcases ih s cur with h | ⟨q, hq, h⟩
          · exact Or.inl h
          · exact Or.inr ⟨q, List.mem_cons_of_mem _ hq, h⟩

/-- A pair taken from a dropped suffix of an enumeration has its second component in
the original list. -/
lemma snd_mem_of_mem_enum_drop {α : Type} {l : List α} {s : ℕ} {q : ℕ × α}
    (hq : q ∈ l.enum.drop s) : q.2 ∈ l := by
  have hmem : q ∈ l.enum := List.mem_of_mem_drop hq
  rw [List.mem_enum_iff_getElem?] at hmem
  exact List.getElem?_mem hmem

/-- The window loop returns one op value per window. -/
lemma opValuesGo_length (ovp : Interval → Interval → ℚ) (events : List Interval) :
    ∀ (ws : List (List (List Cell))) (s : ℕ),
      (opValuesGo ovp events ws s).length = ws.length := by
  intro ws
  induction ws with
  | nil => intro s; rfl
  | cons w tl ih =>
    intro s
    simp only [opValuesGo, List.length_cons]
    rw [ih]

/-- Every op value produced by the window loop lies in [0, 1]. -/
lemma opValuesGo_mem_unitInterval (ovp : Interval → Interval → ℚ)
    (hb : ∀ a b, 0 ≤ ovp a b ∧ ovp a b ≤ 1) (events : List Interval) :
    ∀ (ws : List (List (List Cell))) (s : ℕ),
      ∀ v ∈ opValuesGo ovp events ws s, 0 ≤ v ∧ v ≤ 1 := by
  intro ws
  induction ws with
  | nil => intro s v hv; exact absurd hv (List.not_mem_nil v)
  | cons w tl ih =>
    intro s v hv
    simp only [opValuesGo, List.mem_cons] at hv
    rcases hv with hv | hv
    · rw [hv]
      exact opInner_mem_unitInterval ovp hb (windowInterval w) (events.enum.drop s) s 0
        (le_refl 0) (by norm_num)
    · exact ih _ v hv

/-- A window that overlaps no event interval receives the op value 0. -/
lemma opValuesGo_zero_of_no_overlap (ovp : Interval → Interval → ℚ)
    (h0 : ∀ a b, ¬ a.overlaps b → ovp a b = 0) (events : List Interval) :
    ∀ (ws : List (List (List Cell))) (s : ℕ),
      ∀ p ∈ ws.zip (opValuesGo ovp events ws s),
        (∀ ev ∈ events, ¬ (windowInterval p.1).overlaps ev) → p.2 = 0 := by
  intro ws
  induction ws with
  | nil => intro s p hp; exact absurd hp (List.not_mem_nil p)
  | cons w tl ih =>
    intro s p hp hno
    simp only [opValuesGo, List.zip_cons_cons, List.mem_cons] at hp
    rcases hp with hp | hp
    · rw [hp]
      apply opInner_eq_of_no_overlap ovp h0 (windowInterval w) (events.enum.drop s) s 0
      intro q hq
      have hev : q.2 ∈ events := snd_mem_of_mem_enum_drop hq
      have := hno q.2 hev
      rw [hp] at this
      exact this
    · exact ih _ p hp hno

/-- Every op value is either 0 or the overlap score of its window with some event. -/
lemma opValuesGo_attained (ovp : Interval → Interval → ℚ) (events : List Interval) :
    ∀ (ws : List (List (List Cell))) (s : ℕ),
      ∀ p ∈ ws.zip (opValuesGo ovp events ws s),
        p.2 = 0 ∨ ∃ ev ∈ events, p.2 = ovp (windowInterval p.1) ev := by
  intro ws
  induction ws with
  | nil => intro s p hp; exact absurd hp (List.not_mem_nil p)
  | cons w tl ih =>
    intro s p hp
    simp only [opValuesGo, List.zip_cons_cons, List.mem_cons] at hp
    rcases hp with hp | hp
    · rcases opInner_attained ovp (windowInterval w) (events.enum.drop s) s 0 with h | ⟨q, hq, h⟩
      · rw [hp]
        exact Or.inl h
      · rw [hp]
        exact Or.inr ⟨q.2, snd_mem_of_mem_enum_drop hq, h⟩
    · exact ih _ p hp

/-- Claim C2: assuming the interval overlap score lies in [0, 1] and vanishes on
disjoint intervals, op returns exactly one value per window, every returned value
lies in [0, 1], every window whose time span overlaps no event interval receives the
value exactly 0, and every value is 0 or an overlap score of its window with some
event interval (the running maximum over the cursor scan is attained). -/
theorem C2_op_values_bounded (ovp : Interval → Interval → ℚ)
    (windows : List (List (List Cell))) (events : List Interval)
    (hb : ∀ a b, 0 ≤ ovp a b ∧ ovp a b ≤ 1)
    (h0 : ∀ a b, ¬ a.overlaps b → ovp a b = 0) :
    (opWith ovp windows events).2.length = windows.length ∧
    (∀ v ∈ (opWith ovp windows events).2, 0 ≤ v ∧ v ≤ 1) ∧
    (∀ p ∈ windows.zip (opWith ovp windows events).2,
      (∀ ev ∈ events, ¬ (windowInterval p.1).overlaps ev) → p.2 = 0) ∧
    (∀ p ∈ windows.zip (opWith ovp windows events).2,
      p.2 = 0 ∨ ∃ ev ∈ events, p.2 = ovp (windowInterval p.1) ev) :=
  ⟨opValuesGo_length ovp events windows 0,
    opValuesGo_mem_unitInterval ovp hb events windows 0,
    opValuesGo_zero_of_no_overlap ovp h0 events windows 0,
    opValuesGo_attained ovp events windows 0⟩

/-- Witness for C2: the modelled overlap score on one concrete window (timestamps 0
to 1) and one concrete disjoint event interval (2 to 3). -/
theorem C2_op_values_bounded_witness :
    (opWith overlapping_parameter [[[some 5, some 0], [some 7, some 1]]]
        [⟨2, 3⟩]).2.length = 1 ∧
    (∀ v ∈ (opWith overlapping_parameter [[[some 5, some 0], [some 7, some 1]]]
        [⟨2, 3⟩]).2, 0 ≤ v ∧ v ≤ 1) ∧
    (∀ p ∈ [[[some 5, some 0], [some 7, some 1]]].zip
        (opWith overlapping_parameter [[[some 5, some 0], [some 7, some 1]]]
          [⟨2, 3⟩]).2,
      (∀ ev ∈ [(⟨2, 3⟩ : Interval)], ¬ (windowInterval p.1).overlaps ev) → p.2 = 0) ∧
    (∀ p ∈ [[[some 5, some 0], [some 7, some 1]]].zip
        (opWith overlapping_parameter [[[some 5, some 0], [some 7, some 1]]]
          [⟨2, 3⟩]).2,
      p.2 = 0 ∨ ∃ ev ∈ [(⟨2, 3⟩ : Interval)],
        p.2 = overlapping_parameter (windowInterval p.1) ev) :=
  C2_op_values_bounded overlapping_parameter
    [[[some 5, some 0], [some 7, some 1]]] [⟨2, 3⟩]
    (fun a b => overlapping_parameter_mem_unitInterval a b)
    (fun a b => overlapping_parameter_eq_zero_of_not_overlaps a b)

/-- A pandas DataFrame: a timestamp index (rationals, already in datetime form) and
named columns of cells.  Column order is the pandas column order. -/
structure DataFrame where
  index : List ℚ
  cols : List (String × List Cell)
  deriving Repr

/-- Modelled from the spec: the TIME_LABEL constant of the eventdetector package
root (eventdetector/__init__.py, not in src), the name of the appended trailing
timestamp column. -/
def TIME_LABEL : String := "time"

/-- Modelled from the spec: the FILL_NAN_ZEROS constant of the package root. -/
def FILL_NAN_ZEROS : String := "zeros"

/-- Modelled from the spec: the FILL_NAN_FFILL constant of the package root. -/
def FILL_NAN_FFILL : String := "ffill"

/-- Modelled from the spec: the FILL_NAN_BFILL constant of the package root. -/
def FILL_NAN_BFILL : String := "bfill"

/-- Modelled from the spec: the FILL_NAN_MEDIAN constant of the package root. -/
def FILL_NAN_MEDIAN : String := "median"

/-- Pandas column assignment df[name] = vals: replaces the column in place when the
name exists, otherwise appends it as the last column. -/
def DataFrame.setCol (df : DataFrame) (name : String) (vals : List Cell) : DataFrame :=
  if df.cols.any (fun c => c.1 = name) then
    { df with cols := df.cols.map (fun c => if c.1 = name then (name, vals) else c) }
  else
    { df with cols := df.cols ++ [(name, vals)] }

/-- Row-major view of a DataFrame, the DataFrame.to_numpy of the source: row i holds
the i-th cell of every column, in column order. -/
def DataFrame.toRows (df : DataFrame) : List (List Cell) :=
  (List.range df.index.length).map (fun i => df.cols.map (fun c => c.2.getD i none))

/-- Forward fill of one column (pandas ffill), carrying the last observed value. -/
def ffillCol (last : Cell) : List Cell → List Cell
  | [] => []
  | c :: cs =>
    match c with
    | some v => some v :: ffillCol (some v) cs
    | none => last :: ffillCol last cs

/-- Median of the non-missing values of one column (pandas Series.median): the
middle of the sorted values, or the mean of the two middles for an even count; NaN
when every value is missing. -/
def colMedian (xs : List Cell) : Cell :=
  let vs := xs.filterMap id
  let sorted := List.insertionSort (fun a b : ℚ => a ≤ b) vs
  if vs.length = 0 then none
  else if vs.length % 2 = 1 then some (sorted.getD (vs.length / 2) 0)
  else some ((sorted.getD (vs.length / 2 - 1) 0 + sorted.getD (vs.length / 2) 0) / 2)

/-- Pandas DataFrame.fillna(0): every NaN becomes 0. -/
def DataFrame.fillZeros (df : DataFrame) : DataFrame :=
  { df with cols := df.cols.map (fun c => (c.1, c.2.map (fun x => some (x.getD 0)))) }

/-- Pandas DataFrame.ffill. -/
def DataFrame.fillFfill (df : DataFrame) : DataFrame :=
  { df with cols := df.cols.map (fun c => (c.1, ffillCol none c.2)) }

/-- Pandas DataFrame.bfill: a forward fill over the reversed column. -/
def DataFrame.fillBfill (df : DataFrame) : DataFrame :=
  { df with cols := df.cols.map (fun c => (c.1, (ffillCol none c.2.reverse).reverse)) }

/-- Pandas DataFrame.fillna(df.median()): every NaN becomes its column median. -/
def DataFrame.fillMedian (df : DataFrame) : DataFrame :=
  { df with cols := df.cols.map (fun c =>
      (c.1, c.2.map (fun x => match x with | some v => some v | none => colMedian c.2))) }

/-- Embedding of helpers.sliding_windows (lines 16-41): fixed-stride overlapping
windows of consecutive rows; window i covers rows i * step to i * step + width - 1.
Raises when the width exceeds the data length or the step exceeds the width.  The
Python source additionally crashes with ZeroDivisionError when step = 0; theorems
assume 1 <= step. -/
def sliding_windows {α : Type} (data : List α) (width step : ℕ) :
    Except String (List (List α)) :=
  if width > data.length then
    .error "Window size cannot be greater than the size of the input data"
  else if step > width then
    .error "Step size cannot be greater than window size"
  else
    let nb_windows := (data.length - width) / step + 1
    .ok ((List.range nb_windows).map (fun i => (data.drop (i * step)).take width))

/-- Embedding of helpers.convert_dataframe_to_sliding_windows (lines 44-78).  The
first component is the caller-visible state of the dataframe after the call: the
source converts the index in place and assigns the TIME_LABEL column in place before
rebinding the local name in the fill branches, so the caller observes the appended
timestamp column (the fills act on a local copy).  The second component is the
returned windows, or the raised error. -/
def convert_dataframe_to_sliding_windows (df : DataFrame) (width step : ℕ)
    (fill_method : Option String) :
    DataFrame × Except String (List (List (List Cell))) :=
  let df0 := df.setCol TIME_LABEL (df.index.map some)
  let filled : Except String DataFrame :=
    if fill_method = some FILL_NAN_ZEROS then .ok df0.fillZeros
    else if fill_method = some FILL_NAN_FFILL then .ok df0.fillFfill
    else if fill_method = some FILL_NAN_BFILL then .ok df0.fillBfill
    else if fill_method = some FILL_NAN_MEDIAN then .ok df0.fillMedian
    else if fill_method ≠ none then .error "Unsupported fill method"
    else .ok df0
  (df0, match filled with
    | .error e => .error e
    | .ok dfF => sliding_windows dfF.toRows width step)

/-- Assigning a column whose name is not present appends it as the last column. -/
lemma setCol_of_not_mem (df : DataFrame) (name : String) (vals : List Cell)
    (h : name ∉ df.cols.map Prod.fst) :
    df.setCol name vals = ⟨df.index, df.cols ++ [(name, vals)]⟩ := by
  unfold DataFrame.setCol
  rw [if_neg]
  intro hany
  rw [List.any_eq_true] at hany
  obtain ⟨c, hc, hceq⟩ := hany
  exact h (List.mem_map.2 ⟨c, hc, by simpa using hceq⟩)

/-- The row view has one row per index entry. -/
lemma toRows_length (df : DataFrame) : df.toRows.length = df.index.length := by
  simp [DataFrame.toRows]

/-- Every row of the row view has one cell per column. -/
lemma length_of_mem_toRows (df : DataFrame) (r : List Cell) (hr : r ∈ df.toRows) :
    r.length = df.cols.length := by
  simp only [DataFrame.toRows, List.mem_map] at hr
  obtain ⟨i, _, hi⟩ := hr
  rw [← hi, List.length_map]

/-- Claim C1: for a dataset with N rows and F feature columns,
convert_dataframe_to_sliding_windows(width = w, step = s) raises when w exceeds N or
s exceeds w, and otherwise returns exactly (N - w) / s + 1 windows, each of shape
(w, F + 1) with the appended trailing timestamp column, and of shape (w, F) once op
strips that column. -/
theorem C1_windowing_shape (df : DataFrame) (w s : ℕ) (events : List Interval)
    (hs : 1 ≤ s) (htl : TIME_LABEL ∉ df.cols.map Prod.fst) :
    (w > df.index.length →
      (convert_dataframe_to_sliding_windows df w s none).2 =
        .error "Window size cannot be greater than the size of the input data") ∧
    (w ≤ df.index.length → s > w →
      (convert_dataframe_to_sliding_windows df w s none).2 =
        .error "Step size cannot be greater than window size") ∧
    (w ≤ df.index.length → s ≤ w →
      ∃ ws, (convert_dataframe_to_sliding_windows df w s none).2 = .ok ws ∧
        ws.length = (df.index.length - w) / s + 1 ∧
        (∀ win ∈ ws, win.length = w ∧
          ∀ row ∈ win, row.length = df.cols.length + 1) ∧
        (∀ win ∈ (op ws events).1, win.length = w ∧
          ∀ row ∈ win, row.length = df.cols.length)) := by
  have hdf0 := setCol_of_not_mem df TIME_LABEL (df.index.map some) htl
  set df1 : DataFrame := ⟨df.index, df.cols ++ [(TIME_LABEL, df.index.map some)]⟩
    with hdf1
  have hconv : (convert_dataframe_to_sliding_windows df w s none).2 =
      sliding_windows df1.toRows w s := by
    simp [convert_dataframe_to_sliding_windows, hdf0, FILL_NAN_ZEROS, FILL_NAN_FFILL,
      FILL_NAN_BFILL, FILL_NAN_MEDIAN]
  have hrows : df1.toRows.length = df.index.length := toRows_length df1
  have hcols : df1.cols.length = df.cols.length + 1 := by
    simp [hdf1]
  refine ⟨?_, ?_, ?_⟩
  · intro hw
    rw [hconv]
    unfold sliding_windows
    rw [if_pos (by rw [hrows]; exact hw)]
  · intro hw hsw
    rw [hconv]
    unfold sliding_windows
    rw [if_neg (by rw [hrows]; exact not_lt.2 hw), if_pos hsw]
  · intro hw hsw
    rw [hconv]
    unfold sliding_windows
    rw [if_neg (by rw [hrows]; exact not_lt.2 hw), if_neg (not_lt.2 hsw)]
    refine ⟨_, rfl, ?_, ?_, ?_⟩
    · rw [List.length_map, List.length_range, hrows]
    · intro win hwin
      rw [List.mem_map] at hwin
      obtain ⟨i, hi, hwin⟩ := hwin
      rw [List.mem_range] at hi
      have hmul : i * s ≤ df1.toRows.length - w :=
        (Nat.le_div_iff_mul_le hs).1 (Nat.lt_succ_iff.1 hi)
      constructor
      · rw [← hwin, List.length_take, List.length_drop]
        have hwN : w ≤ df1.toRows.length := by rw [hrows]; exact hw
        omega
      · intro row hrow
        have hmemrows : row ∈ df1.toRows := by
          rw [← hwin] at hrow
          exact List.mem_of_mem_drop (List.mem_of_mem_take hrow)
        rw [length_of_mem_toRows df1 row hmemrows, hcols]
    · intro win hwin
      have hop : (op (List.map
          (fun i => List.take w (List.drop (i * s) df1.toRows))
          (List.range ((df1.toRows.length - w) / s + 1))) events).1 =
          (List.map (fun i => List.take w (List.drop (i * s) df1.toRows))
            (List.range ((df1.toRows.length - w) / s + 1))).map
            (fun v => v.map List.dropLast) := rfl
      rw [hop, List.mem_map] at hwin
      obtain ⟨win0, hwin0, hwin⟩ := hwin
      rw [List.mem_map] at hwin0
      obtain ⟨i, hi, hwin0⟩ := hwin0
      rw [List.mem_range] at hi
      have hmul : i * s ≤ df1.toRows.length - w :=
        (Nat.le_div_iff_mul_le hs).1 (Nat.lt_succ_iff.1 hi)
      constructor
      · rw [← hwin, List.length_map, ← hwin0, List.length_take, List.length_drop]
        have hwN : w ≤ df1.toRows.length := by rw [hrows]; exact hw
        omega
      · intro row hrow
        rw [← hwin, List.mem_map] at hrow
        obtain ⟨row0, hrow0, hrow⟩ := hrow
        have hmemrows : row0 ∈ df1.toRows := by
          rw [← hwin0] at hrow0
          exact List.mem_of_mem_drop (List.mem_of_mem_take hrow0)
        rw [← hrow, List.length_dropLast, length_of_mem_toRows df1 row0 hmemrows, hcols]
        omega

/-- Witness for C1 on a concrete three-row, one-column dataset with width 2, step 1
and no events. -/
theorem C1_windowing_shape_witness :
    (2 > 3 →
      (convert_dataframe_to_sliding_windows
          (DataFrame.mk [0, 1, 2] [("a", [some 1, some 2, some 3])]) 2 1 none).2 =
        .error "Window size cannot be greater than the size of the input data") ∧
    (2 ≤ 3 → 1 > 2 →
      (convert_dataframe_to_sliding_windows
          (DataFrame.mk [0, 1, 2] [("a", [some 1, some 2, some 3])]) 2 1 none).2 =
        .error "Step size cannot be greater than window size") ∧
    (2 ≤ 3 → 1 ≤ 2 →
      ∃ ws, (convert_dataframe_to_sliding_windows
          (DataFrame.mk [0, 1, 2] [("a", [some 1, some 2, some 3])]) 2 1 none).2 =
            .ok ws ∧
        ws.length = (3 - 2) / 1 + 1 ∧
        (∀ win ∈ ws, win.length = 2 ∧ ∀ row ∈ win, row.length = 1 + 1) ∧
        (∀ win ∈ (op ws []).1, win.length = 2 ∧ ∀ row ∈ win, row.length = 1)) :=
  C1_windowing_shape (DataFrame.mk [0, 1, 2] [("a", [some 1, some 2, some 3])]) 2 1 []
    (by decide) (by decide)

/-- Counterexample to claim C5: the caller's dataframe is not left unchanged by
convert_dataframe_to_sliding_windows; on a one-column frame the column list gains
the trailing TIME_LABEL column. -/
theorem C5_counterexample :
    (convert_dataframe_to_sliding_windows
        (DataFrame.mk [0, 1] [("a", [some 1, some 2])]) 1 1 none).1.cols.map Prod.fst =
      ["a", TIME_LABEL] ∧
    (convert_dataframe_to_sliding_windows
        (DataFrame.mk [0, 1] [("a", [some 1, some 2])]) 1 1 none).1.cols.map Prod.fst ≠
      (DataFrame.mk [0, 1] [("a", [some 1, some 2])]).cols.map Prod.fst := by
  constructor <;> decide

/-- Claim C5 as amended: convert_dataframe_to_sliding_windows mutates the caller's
dataframe by appending the TIME_LABEL timestamp column; the index and the
pre-existing feature columns are preserved, and the fill branches act only on a
local copy. -/
theorem C5_caller_frame_after_call (df : DataFrame) (w s : ℕ) (fm : Option String)
    (htl : TIME_LABEL ∉ df.cols.map Prod.fst) :
    (convert_dataframe_to_sliding_windows df w s fm).1.index = df.index ∧
    (convert_dataframe_to_sliding_windows df w s fm).1.cols =
      df.cols ++ [(TIME_LABEL, df.index.map some)] := by
  have h := setCol_of_not_mem df TIME_LABEL (df.index.map some) htl
  constructor <;> simp [convert_dataframe_to_sliding_windows, h]

/-- Witness for the amended C5 on a concrete one-column frame. -/
theorem C5_caller_frame_after_call_witness :
    (convert_dataframe_to_sliding_windows
        (DataFrame.mk [0, 1] [("a", [some 1, some 2])]) 1 1 none).1.index = [0, 1] ∧
    (convert_dataframe_to_sliding_windows
        (DataFrame.mk [0, 1] [("a", [some 1, some 2])]) 1 1 none).1.cols =
      [("a", [some 1, some 2])] ++ [(TIME_LABEL, [some 0, some 1])] :=
  C5_caller_frame_after_call (DataFrame.mk [0, 1] [("a", [some 1, some 2])]) 1 1 none (by decide)

/-- Embedding of the inner loop of helpers.remove_close_events (lines 226-234): scan
the remaining positions j, marking each event within delta of the current anchor for
deletion, and break at the first event farther than delta. -/
def rceInner (events : List ℚ) (delta mid : ℚ) : List ℕ → List ℕ → List ℕ
  | [], dels => dels
  | j :: js, dels =>
    if events.getD j 0 - mid ≤ delta then rceInner events delta mid js (dels ++ [j])
    else dels

/-- Embedding of the outer loop of helpers.remove_close_events (lines 217-234):
walk every position i in order, skipping positions already marked for deletion, and
otherwise run the inner scan over the positions after i. -/
def rceOuter (events : List ℚ) (delta : ℚ) : List ℕ → List ℕ → List ℕ
  | [], dels => dels
  | i :: rest, dels =>
    if i ∈ dels then rceOuter events delta rest dels
    else rceOuter events delta rest
      (rceInner events delta (events.getD i 0)
        (List.range' (i + 1) (events.length - (i + 1))) dels)

/-- Embedding of helpers.remove_close_events (lines 197-237) on the list of middle
event times, with the threshold already converted to a duration: run both loops over
all positions, then drop the marked events. -/
def remove_close_events_core (events : List ℚ) (delta : ℚ) : List ℚ :=
  ((events.enum).filter
    (fun p => decide (p.1 ∉ rceOuter events delta (List.range events.length) []))).map
    Prod.snd

/-- Embedding of helpers.remove_close_events with its source signature: the minimum
gap is given as a magnitude plus a unit and converted through get_timedelta. -/
def remove_close_events (events : List ℚ) (delta_unit_time : ℤ) (unit : TimeUnit) :
    List ℚ :=
  remove_close_events_core events (get_timedelta delta_unit_time unit)

/-- The inner scan marks every remaining event when all of them are within delta of
the anchor. -/
lemma rceInner_all_close (events : List ℚ) (delta mid : ℚ) :
    ∀ (js : List ℕ) (dels : List ℕ),
      (∀ j ∈ js, events.getD j 0 - mid ≤ delta) →
      rceInner events delta mid js dels = dels ++ js := by
  intro js
  induction js with
  | nil => intro dels _; simp [rceInner]
  | cons j tl ih =>
    intro dels hall
    rw [rceInner, if_pos (hall j (List.mem_cons_self _ _))]
    rw [ih (dels ++ [j]) (fun x hx => hall x (List.mem_cons_of_mem _ hx))]
    simp

/-- The outer loop is the identity on the marks when every remaining position is
already marked. -/
lemma rceOuter_all_deleted (events : List ℚ) (delta : ℚ) :
    ∀ (idxs : List ℕ) (dels : List ℕ),
      (∀ i ∈ idxs, i ∈ dels) → rceOuter events delta idxs dels = dels := by
  intro idxs
  induction idxs with
  | nil => intro dels _; rfl
  | cons i tl ih =>
    intro dels hall
    rw [rceOuter, if_pos (hall i (List.mem_cons_self _ _))]
    exact ih dels (fun x hx => hall x (List.mem_cons_of_mem _ hx))

/-- When every later event lies within delta of the first one, remove_close_events
keeps only the first event. -/
lemma rce_core_collapse (h : ℚ) (xs : List ℚ) (delta : ℚ)
    (hall : ∀ x ∈ xs, x - h ≤ delta) :
    remove_close_events_core (h :: xs) delta = [h] := by
  have hlen : (h :: xs).length = xs.length + 1 := rfl
  have hrange : List.range (h :: xs).length = 0 :: List.range' 1 xs.length := by
    rw [hlen, List.range_eq_range', List.range'_succ]
  have hinner : rceInner (h :: xs) delta ((h :: xs).getD 0 0)
      (List.range' (0 + 1) ((h :: xs).length - (0 + 1))) [] =
      List.range' 1 xs.length := by
    have harg : List.range' (0 + 1) ((h :: xs).length - (0 + 1)) =
        List.range' 1 xs.length := by
      rw [hlen]
      norm_num
    have hmid : (h :: xs).getD 0 0 = h := rfl
    rw [harg, hmid, rceInner_all_close]
    · rfl
    · intro j hj
      rw [List.mem_range'_1] at hj
      obtain ⟨hj1, hj2⟩ := hj
      obtain ⟨k, rfl⟩ : ∃ k, j = k + 1 := ⟨j - 1, by omega⟩
      rw [List.getD_cons_succ]
      have hk : k < xs.length := by omega
      have hgetd : xs.getD k 0 = xs[k] := by
        rw [List.getD_eq_getElem?_getD, List.getElem?_eq_getElem hk]
        rfl
      rw [hgetd]
      exact hall xs[k] (List.getElem_mem hk)
  have houter : rceOuter (h :: xs) delta (List.range (h :: xs).length) [] =
      List.range' 1 xs.length := by
    rw [hrange, rceOuter, if_neg (List.not_mem_nil 0), hinner]
    exact rceOuter_all_deleted (h :: xs) delta _ _ (fun i hi => hi)
  unfold remove_close_events_core
  rw [houter, List.enum_cons]
  rw [List.filter_cons]
  have h0 : decide ((0, h).1 ∉ List.range' 1 xs.length) = true := by
    simp [List.mem_range'_1]
  rw [if_pos h0]
  have hrest : (xs.enumFrom 1).filter
      (fun p => decide (p.1 ∉ List.range' 1 xs.length)) = [] := by
    rw [List.filter_eq_nil_iff]
    intro p hp
    have hmem := List.le_fst_of_mem_enumFrom hp
    have hlt := List.fst_lt_add_of_mem_enumFrom hp
    simp only [decide_eq_true_eq, Decidable.not_not]
    rw [List.mem_range'_1]
    omega
  rw [hrest]
  rfl

/-- The three-event scenario: with middle times t, t + d1, t + d2 where d1 lies
within the threshold and d2 beyond it, only the middle event is dropped. -/
lemma rce_core_three (t d1 d2 delta : ℚ) (h1 : d1 ≤ delta) (h2 : ¬ d2 ≤ delta) :
    remove_close_events_core [t, t + d1, t + d2] delta = [t, t + d2] := by
  have hin : rceInner [t, t + d1, t + d2] delta t [1, 2] [] = [1] := by
    rw [rceInner, if_pos (by
      rw [show List.getD [t, t + d1, t + d2] 1 0 = t + d1 from rfl]
      linarith)]
    rw [rceInner, if_neg (by
      rw [show List.getD [t, t + d1, t + d2] 2 0 = t + d2 from rfl]
      intro hc
      exact h2 (by linarith))]
    rfl
  have hout : rceOuter [t, t + d1, t + d2] delta [0, 1, 2] [] = [1] := by
    rw [rceOuter, if_neg (List.not_mem_nil 0)]
    rw [show List.range' (0 + 1) ([t, t + d1, t + d2].length - (0 + 1)) = [1, 2] from rfl]
    rw [show List.getD [t, t + d1, t + d2] 0 0 = t from rfl]
    rw [hin]
    rw [rceOuter, if_pos (by simp)]
    rw [rceOuter, if_neg (by simp)]
    rfl
  unfold remove_close_events_core
  rw [show List.range [t, t + d1, t + d2].length = [0, 1, 2] from rfl]
  rw [hout]
  rfl

/-- Claim C8: for three events at times t, t + 1 and t + 100 in the unit under test
and a minimum gap of 10, remove_close_events retains t and t + 100 and drops t + 1;
more generally every event whose gap from the retained anchor stays within the
converted minimum gap is deleted (a later-anchor scan never resurrects it). -/
theorem C8_remove_close_events (t : ℚ) (u : TimeUnit) :
    remove_close_events [t, t + get_timedelta 1 u, t + get_timedelta 100 u] 10 u =
      [t, t + get_timedelta 100 u] ∧
    (∀ (h : ℚ) (xs : List ℚ) (n : ℤ),
      (∀ x ∈ xs, x - h ≤ get_timedelta n u) →
      remove_close_events (h :: xs) n u = [h]) := by
  constructor
  · unfold remove_close_events
    apply rce_core_three
    · cases u <;> norm_num [get_timedelta]
    · cases u <;> norm_num [get_timedelta]
  · intro h xs n hall
    exact rce_core_collapse h xs _ hall

/-- Witness for C8 at t = 0 in unit SECOND, with the collapse clause instantiated on
the two events 0 and 1 under a minimum gap of 10 seconds. -/
theorem C8_remove_close_events_witness :
    remove_close_events
        [0, 0 + get_timedelta 1 .second, 0 + get_timedelta 100 .second] 10 .second =
      [0, 0 + get_timedelta 100 .second] ∧
    remove_close_events (0 :: [1]) 10 .second = [0] :=
  ⟨(C8_remove_close_events 0 .second).1,
    (C8_remove_close_events 0 .second).2 0 [1] 10 (by
      intro x hx
      simp only [List.mem_singleton] at hx
      subst hx
      norm_num [get_timedelta])⟩

/-- Embedding of the min-loss accumulation of ModelTrainer.fitting_models
(src/eventdetector/models/models_trainer.py, lines 111-119): min_loss starts at
infinity (none) and each loss strictly below the running minimum replaces it. -/
def minLoss (losses : List (String × ℚ)) : Option ℚ :=
  losses.foldl (fun acc p =>
    match acc with
    | none => some p.2
    | some m => if m > p.2 then some p.2 else some m) none

/-- Embedding of the best-model selection of ModelTrainer.fitting_models (lines
121-125): every model whose test loss is at most min_loss + epsilon is retained, in
evaluation order. -/
def bestModels (losses : List (String × ℚ)) (epsilon : ℚ) : List String :=
  match minLoss losses with
  | none => []
  | some m => (losses.filter (fun p => p.2 ≤ m + epsilon)).map Prod.fst

/-- Folding the min-loss update from a seed value yields a minimum that bounds the
seed and all scanned losses and is attained at the seed or at a scanned loss. -/
lemma minLoss_foldl_some :
    ∀ (l : List (String × ℚ)) (m : ℚ),
      ∃ m2, l.foldl (fun acc p =>
          match acc with
          | none => some p.2
          | some m0 => if m0 > p.2 then some p.2 else some m0) (some m) = some m2 ∧
        m2 ≤ m ∧ (∀ q ∈ l, m2 ≤ q.2) ∧ (m2 = m ∨ ∃ p ∈ l, m2 = p.2) := by
  intro l
  induction l with
  | nil => intro m; exact ⟨m, rfl, le_refl m, fun q hq => absurd hq (List.not_mem_nil q),
      Or.inl rfl⟩
  | cons a tl ih =>
    intro m
    by_cases hlt : m > a.2
    · obtain ⟨m2, heq, hle, hall, hat⟩ := ih a.2
      refine ⟨m2, ?_, by linarith, ?_, ?_⟩
      · simpa [hlt] using heq
      · intro q hq
        rcases List.mem_cons.1 hq with hq | hq
        · rw [hq]; exact hle
        · exact hall q hq
      · rcases hat with h | ⟨p, hp, h⟩
        · exact Or.inr ⟨a, List.mem_cons_self _ _, h⟩
        · exact Or.inr ⟨p, List.mem_cons_of_mem _ hp, h⟩
    · obtain ⟨m2, heq, hle, hall, hat⟩ := ih m
      refine ⟨m2, ?_, hle, ?_, ?_⟩
      · simpa [hlt] using heq
      · intro q hq
        rcases List.mem_cons.1 hq with hq | hq
        · rw [hq]
          push_neg at hlt
          linarith
        · exact hall q hq
      · rcases hat with h | ⟨p, hp, h⟩
        · exact Or.inl h
        · exact Or.inr ⟨p, List.mem_cons_of_mem _ hp, h⟩

/-- On a non-empty loss table, minLoss returns the loss of some entry that is a
lower bound for every entry. -/
lemma minLoss_spec (losses : List (String × ℚ)) (hne : losses ≠ []) :
    ∃ p ∈ losses, minLoss losses = some p.2 ∧ ∀ q ∈ losses, p.2 ≤ q.2 := by
  match losses, hne with
  | a :: tl, _ =>
    obtain ⟨m2, heq, hle, hall, hat⟩ := minLoss_foldl_some tl a.2
    have heq2 : minLoss (a :: tl) = some m2 := heq
    rcases hat with h | ⟨p, hp, h⟩
    · refine ⟨a, List.mem_cons_self _ _, by rw [heq2, h], ?_⟩
      intro q hq
      rcases List.mem_cons.1 hq with hq | hq
      · rw [hq, ← h]
      · rw [← h]; exact hall q hq
    · refine ⟨p, List.mem_cons_of_mem _ hp, by rw [heq2, h], ?_⟩
      intro q hq
      rcases List.mem_cons.1 hq with hq | hq
      · rw [hq, ← h]; exact hle
      · rw [← h]; exact hall q hq

/-- Claim C3: a model is retained in best_models exactly when its test loss lies
within the additive band epsilon of min_loss; with epsilon = 0.0002, test losses
A = 0.10 and B = 0.1003 keep only A, while A = 0.10 and B = 0.1001 keep both. -/
theorem C3_best_models_epsilon_band (losses : List (String × ℚ)) (epsilon m : ℚ)
    (name : String) (l : ℚ) (hnd : (losses.map Prod.fst).Nodup)
    (hm : minLoss losses = some m) (hmem : (name, l) ∈ losses) :
    (name ∈ bestModels losses epsilon ↔ l ≤ m + epsilon) ∧
    bestModels [("A", (1 : ℚ) / 10), ("B", 1003 / 10000)] (2 / 10000) = ["A"] ∧
    bestModels [("A", (1 : ℚ) / 10), ("B", 1001 / 10000)] (2 / 10000) = ["A", "B"] := by
  refine ⟨?_, by norm_num [bestModels, minLoss, List.filter_cons], by norm_num [bestModels, minLoss, List.filter_cons]⟩
  unfold bestModels
  rw [hm]
  constructor
  · intro hin
    rw [List.mem_map] at hin
    obtain ⟨p, hp, hpn⟩ := hin
    rw [List.mem_filter] at hp
    obtain ⟨hpl, hple⟩ := hp
    have hpeq : p = (name, l) := by
      apply List.inj_on_of_nodup_map hnd hpl hmem
      rw [hpn]
    rw [hpeq] at hple
    simpa using hple
  · intro hle
    rw [List.mem_map]
    refine ⟨(name, l), ?_, rfl⟩
    rw [List.mem_filter]
    exact ⟨hmem, by simpa using hle⟩

/-- Witness for C3 on the concrete two-model loss table A = 0.10, B = 0.1001 with
epsilon = 0.0002: B is within the band. -/
theorem C3_best_models_epsilon_band_witness :
    ("B" ∈ bestModels [("A", (1 : ℚ) / 10), ("B", 1001 / 10000)] (2 / 10000) ↔
      (1001 / 10000 : ℚ) ≤ 1 / 10 + 2 / 10000) ∧
    bestModels [("A", (1 : ℚ) / 10), ("B", 1003 / 10000)] (2 / 10000) = ["A"] ∧
    bestModels [("A", (1 : ℚ) / 10), ("B", 1001 / 10000)] (2 / 10000) = ["A", "B"] :=
  C3_best_models_epsilon_band [("A", (1 : ℚ) / 10), ("B", 1001 / 10000)] (2 / 10000)
    (1 / 10) "B" (1001 / 10000) (by decide) (by norm_num [minLoss]) (by norm_num)

/-- Claim C10: on a non-empty loss table with a non-negative epsilon, the selected
best models form a non-empty subset of the evaluated models, and a model achieving
the minimum test loss is always retained. -/
theorem C10_best_models_nonempty_subset (losses : List (String × ℚ)) (epsilon : ℚ)
    (hne : losses ≠ []) (heps : 0 ≤ epsilon) :
    bestModels losses epsilon ≠ [] ∧
    (∀ n ∈ bestModels losses epsilon, n ∈ losses.map Prod.fst) ∧
    (∃ p ∈ losses, (∀ q ∈ losses, p.2 ≤ q.2) ∧ p.1 ∈ bestModels losses epsilon) := by
  obtain ⟨p, hp, hm, hmin⟩ := minLoss_spec losses hne
  have hpin : p.1 ∈ bestModels losses epsilon := by
    unfold bestModels
    rw [hm, List.mem_map]
    refine ⟨p, ?_, rfl⟩
    rw [List.mem_filter]
    exact ⟨hp, by simp only [decide_eq_true_eq]; linarith⟩
  refine ⟨?_, ?_, p, hp, hmin, hpin⟩
  · intro hnil
    rw [hnil] at hpin
    exact absurd hpin (List.not_mem_nil _)
  · intro n hn
    unfold bestModels at hn
    rw [hm, List.mem_map] at hn
    obtain ⟨q, hq, hqn⟩ := hn
    rw [List.mem_filter] at hq
    rw [List.mem_map]
    exact ⟨q, hq.1, hqn⟩

/-- Witness for C10 on a concrete two-model loss table with epsilon = 0.0002. -/
theorem C10_best_models_nonempty_subset_witness :
    bestModels [("A", (1 : ℚ) / 10), ("B", 1003 / 10000)] (2 / 10000) ≠ [] ∧
    (∀ n ∈ bestModels [("A", (1 : ℚ) / 10), ("B", 1003 / 10000)] (2 / 10000),
      n ∈ [("A", (1 : ℚ) / 10), ("B", 1003 / 10000)].map Prod.fst) ∧
    (∃ p ∈ [("A", (1 : ℚ) / 10), ("B", 1003 / 10000)],
      (∀ q ∈ [("A", (1 : ℚ) / 10), ("B", 1003 / 10000)], p.2 ≤ q.2) ∧
      p.1 ∈ bestModels [("A", (1 : ℚ) / 10), ("B", 1003 / 10000)] (2 / 10000)) :=
  C10_best_models_nonempty_subset [("A", (1 : ℚ) / 10), ("B", 1003 / 10000)]
    (2 / 10000) (by simp) (by norm_num)

/-- Dense-layer architecture of the meta-model FFN built by
ModelTrainer.train_meta_model (models_trainer.py, lines 178-188): the hidden layer
unit counts in the order they are added, the output layer unit count, and the
dropout argument passed for the output layer (None in the source). -/
structure MetaFFNArch where
  hiddenUnits : List ℕ
  outputUnits : ℕ
  outputDropout : Option ℚ
  deriving Repr

/-- Embedding of np.random.randint(low, high): an arbitrary entropy value reduced
into [low, high).  Every value of that range is reachable and no other value is. -/
def randint (low high : ℕ) (r : ℕ) : ℕ := low + r % (high - low)

/-- Descending order on unit counts, the comparator of
sorted(units, reverse=True). -/
def unitsDesc : ℕ → ℕ → Prop := fun a b => b ≤ a

instance : DecidableRel unitsDesc := fun a b => Nat.decLe b a

instance : IsTotal ℕ unitsDesc := ⟨fun a b => le_total b a⟩

instance : IsTrans ℕ unitsDesc := ⟨fun _ _ _ hab hbc => le_trans hbc hab⟩

/-- Embedding of the meta-model FFN construction in ModelTrainer.train_meta_model
(lines 178-188): draw max_layers unit counts with randint(min_units, max_units + 1),
sort them descending, add one dense layer per drawn count (the loop runs j over
range(max_layers), covering the whole sorted list), then a final dense layer with a
single unit and dropout None. -/
def train_meta_model_ffn_arch (max_layers min_units max_units : ℕ)
    (rand : ℕ → ℕ) : MetaFFNArch :=
  let units := (List.range max_layers).map
    (fun i => randint min_units (max_units + 1) (rand i))
  { hiddenUnits := List.insertionSort unitsDesc units
    outputUnits := 1
    outputDropout := none }

/-- The meta-model FFN always has exactly max_layers hidden dense layers, whatever
the random draws. -/
lemma train_meta_model_ffn_arch_length (max_layers min_units max_units : ℕ)
    (rand : ℕ → ℕ) :
    (train_meta_model_ffn_arch max_layers min_units max_units rand).hiddenUnits.length =
      max_layers := by
  unfold train_meta_model_ffn_arch
  rw [List.length_insertionSort, List.length_map, List.length_range]

/-- Counterexample to claim C4: with hyperparams_ffn.max_layers = 3 the meta-model
FFN can never have fewer than 3 hidden layers — the depth is not drawn at random up
to max_layers, it is always exactly max_layers. -/
theorem C4_counterexample :
    ¬ ∃ rand : ℕ → ℕ,
      (train_meta_model_ffn_arch 3 64 256 rand).hiddenUnits.length ≠ 3 := by
  rintro ⟨rand, hne⟩
  exact hne (train_meta_model_ffn_arch_length 3 64 256 rand)

/-- Claim C4 as amended: for type_training = "ffn" the meta-model network has
exactly hyperparams_ffn.max_layers hidden dense layers (the depth is fixed, not
random), each hidden unit count is drawn uniformly from [min_units, max_units], the
hidden counts are sorted descending, and the network ends with a single-unit output
layer with no dropout. -/
theorem C4_meta_model_ffn_layers (max_layers min_units max_units : ℕ)
    (rand : ℕ → ℕ) (h : min_units ≤ max_units) :
    (train_meta_model_ffn_arch max_layers min_units max_units rand).hiddenUnits.length =
      max_layers ∧
    (∀ u ∈ (train_meta_model_ffn_arch max_layers min_units max_units rand).hiddenUnits,
      min_units ≤ u ∧ u ≤ max_units) ∧
    (train_meta_model_ffn_arch max_layers min_units max_units rand).hiddenUnits.Sorted
      unitsDesc ∧
    (train_meta_model_ffn_arch max_layers min_units max_units rand).outputUnits = 1 ∧
    (train_meta_model_ffn_arch max_layers min_units max_units rand).outputDropout =
      none := by
  refine ⟨train_meta_model_ffn_arch_length max_layers min_units max_units rand,
    ?_, ?_, rfl, rfl⟩
  · intro u hu
    unfold train_meta_model_ffn_arch at hu
    simp only at hu
    have hu2 := (List.perm_insertionSort unitsDesc _).subset hu
    rw [List.mem_map] at hu2
    obtain ⟨i, _, hi⟩ := hu2
    have hmod : rand i % (max_units + 1 - min_units) < max_units + 1 - min_units :=
      Nat.mod_lt _ (by omega)
    rw [← hi]
    unfold randint
    omega
  · exact List.sorted_insertionSort unitsDesc _

/-- Witness for the amended C4 at the default hyperparameters (3, 64, 256) and a
concrete entropy stream. -/
theorem C4_meta_model_ffn_layers_witness :
    (train_meta_model_ffn_arch 3 64 256 (fun i => 10 * i)).hiddenUnits.length = 3 ∧
    (∀ u ∈ (train_meta_model_ffn_arch 3 64 256 (fun i => 10 * i)).hiddenUnits,
      64 ≤ u ∧ u ≤ 256) ∧
    (train_meta_model_ffn_arch 3 64 256 (fun i => 10 * i)).hiddenUnits.Sorted
      unitsDesc ∧
    (train_meta_model_ffn_arch 3 64 256 (fun i => 10 * i)).outputUnits = 1 ∧
    (train_meta_model_ffn_arch 3 64 256 (fun i => 10 * i)).outputDropout = none :=
  C4_meta_model_ffn_layers 3 64 256 (fun i => 10 * i) (by norm_num)

/-- Embedding of MetaModel.__compute_and_set_time_sampling
(src/eventdetector/metamodel/meta_model.py, lines 201-225): take the first two index
values of the dataset and infer the time unit from their difference.  An index with
fewer than two usable timestamps fails (the source raises on such an index before
any further work). -/
def computeTimeSampling (index : List ℚ) : Except String (ℤ × TimeUnit) :=
  match index with
  | a :: b :: _ => check_time_unit (b - a)
  | _ => .error "The index should be in datetime format."

/-- Embedding of MetaModel.__create_output_dir (lines 114-139) on a filesystem
modelled as the list of existing directory paths: a pre-existing directory at the
resolved path is deleted, then the directory is created. -/
def createOutputDir (output_dir : String) (fs : List String) : List String :=
  output_dir :: fs.erase output_dir

/-- Embedding of the MetaModel constructor sequence (lines 89-92), threading the
filesystem state: compute the time sampling, set the defaults (pure, no filesystem
effect), run the argument validator, and only then create the output directory.
The validator itself (validate_args from eventdetector/metamodel/utils.py) is not
part of src and is passed as a parameter; per spec section 4.5 it is modelled from
the spec as a pure check with no side effect beyond raising. -/
def metaModelInit {Cfg : Type} (validate : Cfg → Except String Unit) (cfg : Cfg)
    (index : List ℚ) (output_dir : String) (fs : List String) :
    Except String (ℤ × TimeUnit) × List String :=
  match computeTimeSampling index with
  | .error e => (.error e, fs)
  | .ok ts =>
    match validate cfg with
    | .error e => (.error e, fs)
    | .ok _ => (.ok ts, createOutputDir output_dir fs)

/-- Claim C9: when the argument validator rejects the configuration, the MetaModel
constructor leaves the filesystem unchanged — no directory is created and no
pre-existing directory at the resolved output path is deleted — and the constructor
surfaces exactly the validation error whenever the time-sampling step succeeded. -/
theorem C9_validation_before_output_dir {Cfg : Type}
    (validate : Cfg → Except String Unit) (cfg : Cfg) (index : List ℚ)
    (output_dir : String) (fs : List String) (e : String)
    (hv : validate cfg = .error e) :
    (metaModelInit validate cfg index output_dir fs).2 = fs ∧
    (∀ ts, computeTimeSampling index = .ok ts →
      (metaModelInit validate cfg index output_dir fs).1 = .error e) ∧
    (∀ ts (validate2 : Cfg → Except String Unit),
      computeTimeSampling index = .ok ts → validate2 cfg = .ok () →
      (metaModelInit validate2 cfg index output_dir fs).2 =
        createOutputDir output_dir fs) := by
  refine ⟨?_, ?_, ?_⟩
  · cases hc : computeTimeSampling index with
    | error e0 => simp [metaModelInit, hc]
    | ok ts => simp [metaModelInit, hc, hv]
  · intro ts hc
    simp [metaModelInit, hc, hv]
  · intro ts validate2 hc hok
    simp [metaModelInit, hc, hok]

/-- Witness for C9 with a concrete always-rejecting validator, a two-second-cadence
index and one pre-existing directory. -/
theorem C9_validation_before_output_dir_witness :
    (metaModelInit (fun _ : Unit => Except.error "invalid argument") () [0, 2]
      "run_dir" ["old_dir"]).2 = ["old_dir"] ∧
    (∀ ts, computeTimeSampling [0, 2] = .ok ts →
      (metaModelInit (fun _ : Unit => Except.error "invalid argument") () [0, 2]
        "run_dir" ["old_dir"]).1 = .error "invalid argument") ∧
    (∀ ts (validate2 : Unit → Except String Unit),
      computeTimeSampling [0, 2] = .ok ts → validate2 () = .ok () →
      (metaModelInit validate2 () [0, 2] "run_dir" ["old_dir"]).2 =
        createOutputDir "run_dir" ["old_dir"]) :=
  C9_validation_before_output_dir (fun _ : Unit => Except.error "invalid argument")
    () [0, 2] "run_dir" ["old_dir"] "invalid argument" rfl

end EventDetector
